import Mathlib

/-!
Shallow embedding of the hand-tracking aim-trainer game loop
(`src/components/GameCanvas.tsx`, `src/utils/math.ts`, `src/types.ts`,
`src/services/geminiService.ts`).

Conventions of the embedding:
* JS numbers used as coordinates / derived stats are modelled as `ℚ`
  (the simulation arithmetic is linear-rational: lerp with factor 0.4,
  multiplications by canvas sizes, divisions for accuracy / mean);
* wall-clock timestamps and durations in milliseconds are `ℤ`;
* monotone counters (score, hits, misses, streaks) are `ℕ`;
* the one use of `Math.sqrt` (`distance` in `src/utils/math.ts`) is
  embedded by comparing squared quantities: for nonnegative reals,
  `Real.sqrt d < r ↔ d < r ^ 2`, so the hit test `distance < radius`
  is `distanceSq < radius ^ 2`; the bridging lemma is proved below;
* `Math.random()` draws are passed in as explicit rational inputs;
* mutation of the shared refs (`targetsRef`, `statsRef`, `gameStateRef`)
  becomes explicit state passing through `update` / `tick`.
-/

namespace AimTrainer

/-- `HandCursor` from `src/types.ts`: normalized cursor plus pinch flag. -/
structure HandCursor where
  x : ℚ
  y : ℚ
  isPinching : Bool
  deriving Repr, DecidableEq

/-- `Target` from `src/types.ts`. -/
structure Target where
  id : ℚ
  x : ℚ
  y : ℚ
  radius : ℚ
  spawnTime : ℤ
  lifeTime : ℤ
  isHit : Bool
  deriving Repr, DecidableEq

/-- `GameStats` from `src/types.ts` (the `statsRef` contents). -/
structure GameStats where
  score : ℕ
  hits : ℕ
  misses : ℕ
  accuracy : ℚ
  avgReactionTime : ℚ
  bestStreak : ℕ
  deriving Repr, DecidableEq

/-- `gameStateRef` contents from `GameCanvas.tsx` lines 30-39. -/
structure GState where
  lastSpawn : ℤ
  startTime : ℤ
  currentStreak : ℕ
  reactionTimes : List ℤ
  lastShotTime : ℤ
  isPinchingPrevious : Bool
  cursorX : ℚ
  cursorY : ℚ
  deriving Repr, DecidableEq

/-- The full mutable state of one session: `targetsRef`, `statsRef`,
`gameStateRef` bundled. -/
structure St where
  targets : List Target
  stats : GameStats
  gstate : GState
  deriving Repr, DecidableEq

/-- `TARGET_RADIUS_BASE` (`GameCanvas.tsx` line 11). -/
def TARGET_RADIUS_BASE : ℚ := 40
/-- `CANVAS_WIDTH` (`GameCanvas.tsx` line 12). -/
def CANVAS_WIDTH : ℚ := 1280
/-- `CANVAS_HEIGHT` (`GameCanvas.tsx` line 13). -/
def CANVAS_HEIGHT : ℚ := 720

/-- `lerp` from `src/utils/math.ts`. -/
def lerp (start «end» factor : ℚ) : ℚ :=
  start + («end» - start) * factor

/-- Squared Euclidean distance.  The source `distance` in
`src/utils/math.ts` is `Math.sqrt(Math.pow(x2-x1,2) + Math.pow(y2-y1,2))`;
we embed the radicand and compare against squared radii
(see `sqrt_distanceSq_lt_iff`). -/
def distanceSq (x1 y1 x2 y2 : ℚ) : ℚ :=
  (x2 - x1) ^ 2 + (y2 - y1) ^ 2

/-- `randomRange` from `src/utils/math.ts`, with the `Math.random()`
draw `r ∈ [0,1)` passed explicitly. -/
def randomRange (r min max : ℚ) : ℚ :=
  r * (max - min) + min

/-- The `Math.random()` draws consumed by one `spawnTarget` call:
one for the id perturbation, one for x, one for y. -/
structure SpawnRand where
  rid : ℚ
  rx : ℚ
  ry : ℚ
  deriving Repr, DecidableEq

/-- `spawnTarget` (`GameCanvas.tsx` lines 69-81), with `Date.now()`
passed as `now` and the random draws explicit. -/
def spawnTarget (now : ℤ) (r : SpawnRand) : Target :=
  let margin := TARGET_RADIUS_BASE * 2
  { id := (now : ℚ) + r.rid
    x := randomRange r.rx margin (CANVAS_WIDTH - margin)
    y := randomRange r.ry margin (CANVAS_HEIGHT - margin)
    radius := TARGET_RADIUS_BASE
    spawnTime := now
    lifeTime := 3000
    isHit := false }

/-- The environment inputs consumed by one `update` call: the frame
timestamp, the shared `handCursor.current`, and the random draws used
if a spawn happens this frame. -/
structure Frame where
  time : ℤ
  cursor : HandCursor
  rand : SpawnRand
  deriving Repr, DecidableEq

/-- The activity predicate used to build `activeTargets`
(`GameCanvas.tsx` line 106): not hit, and not expired. -/
def isActive (time : ℤ) (t : Target) : Bool :=
  !t.isHit && decide (time - t.spawnTime < t.lifeTime)

/-- The hit test of `GameCanvas.tsx` lines 114-116:
`distance(cursor, target) < target.radius`, embedded squared. -/
def hitTest (cx cy : ℚ) (t : Target) : Bool :=
  decide (distanceSq cx cy t.x t.y < t.radius ^ 2)

/-- A target qualifies for a hit this frame when it is active and the
smoothed cursor lies strictly inside its radius. -/
def qualifies (time : ℤ) (cx cy : ℚ) (t : Target) : Bool :=
  isActive time t && hitTest cx cy t

/-- The backwards hit-scan of `GameCanvas.tsx` lines 108-133: iterate the
target list from the most recently pushed end, skip targets filtered out
of `activeTargets`, mark the first qualifying target as hit and stop
(`break`).  Returns the updated list and the target that was hit, if any.
Processing the tail before the head makes later (more recently pushed)
elements win, exactly as the source's `for (i = len-1; i >= 0; i--)`. -/
def shootScan (time : ℤ) (cx cy : ℚ) : List Target → List Target × Option Target
  | [] => ([], none)
  | t :: ts =>
    let rec_result := shootScan time cx cy ts
    match rec_result.2 with
    | some h => (t :: rec_result.1, some h)
    | none =>
      if qualifies time cx cy t then
        ({ t with isHit := true } :: ts, some t)
      else
        (t :: ts, none)

/-- The end-of-step compaction (`GameCanvas.tsx` lines 144-150):
`alive = (time - t.spawnTime < t.lifeTime) || t.isHit; return alive && !t.isHit`. -/
def cleanupPhase (time : ℤ) (targets : List Target) : List Target :=
  targets.filter fun t =>
    (decide (time - t.spawnTime < t.lifeTime) || t.isHit) && !t.isHit

/-- The smoothed cursor x after this frame's lerp
(`GameCanvas.tsx` lines 88-92, factor 0.4 = 2/5). -/
def smoothedX (f : Frame) (s : St) : ℚ :=
  s.gstate.cursorX + (f.cursor.x * CANVAS_WIDTH - s.gstate.cursorX) * (2/5)

/-- The smoothed cursor y after this frame's lerp
(`GameCanvas.tsx` lines 89-93). -/
def smoothedY (f : Frame) (s : St) : ℚ :=
  s.gstate.cursorY + (f.cursor.y * CANVAS_HEIGHT - s.gstate.cursorY) * (2/5)

/-- Whether this frame's `update` fires a shoot event
(`didShoot` at `GameCanvas.tsx` line 96). -/
def didShootIn (f : Frame) (s : St) : Bool :=
  f.cursor.isPinching && !s.gstate.isPinchingPrevious

/-- The target list after the spawn gate (`GameCanvas.tsx` lines 100-103):
a new target is pushed when more than 800ms have passed since `lastSpawn`. -/
def postSpawnTargets (f : Frame) (s : St) : List Target :=
  if f.time - s.gstate.lastSpawn > 800 then
    s.targets ++ [spawnTarget f.time f.rand]
  else s.targets

/-- `update` (`GameCanvas.tsx` lines 83-152): cursor smoothing, pinch edge
detection, time-gated spawn, shoot handling, cleanup. -/
def update (f : Frame) (s : St) : St :=
  -- 1. smooth the cursor (lerp factor 0.4, lines 88-93)
  let cursorX := smoothedX f s
  let cursorY := smoothedY f s
  -- 2. edge-detect the shoot event (lines 95-97)
  let isPinching := f.cursor.isPinching
  let didShoot := didShootIn f s
  -- 3. spawn gate (lines 100-103)
  let targets1 := postSpawnTargets f s
  let lastSpawn1 := if f.time - s.gstate.lastSpawn > 800 then f.time else s.gstate.lastSpawn
  -- 4. collisions & input (lines 105-140)
  let scan := if didShoot then shootScan f.time cursorX cursorY targets1 else (targets1, none)
  let targets2 := scan.1
  let statsState :=
    match scan.2 with
    | some h =>
      ({ s.stats with
          score := s.stats.score + (100 + s.gstate.currentStreak * 10)
          hits := s.stats.hits + 1
          bestStreak :=
            if s.gstate.currentStreak + 1 > s.stats.bestStreak then
              s.gstate.currentStreak + 1
            else s.stats.bestStreak },
       { s.gstate with
          currentStreak := s.gstate.currentStreak + 1
          reactionTimes := s.gstate.reactionTimes ++ [f.time - h.spawnTime] })
    | none =>
      if didShoot then
        ({ s.stats with misses := s.stats.misses + 1 },
         { s.gstate with currentStreak := 0 })
      else (s.stats, s.gstate)
  -- 5. cleanup (lines 142-150)
  { targets := cleanupPhase f.time targets2
    stats := statsState.1
    gstate :=
      { statsState.2 with
          lastSpawn := lastSpawn1
          isPinchingPrevious := isPinching
          cursorX := cursorX
          cursorY := cursorY } }

/-- Step classification of one `update` call: a shoot event that hit a
target, a shoot event that missed, or no shoot event. -/
inductive StepEvent where
  | hit
  | shotMiss
  | noShot
  deriving Repr, DecidableEq

/-- The event produced by one `update` call, read off from the same
sub-definitions `update` itself uses. -/
def stepEvent (f : Frame) (s : St) : StepEvent :=
  if didShootIn f s then
    match (shootScan f.time (smoothedX f s) (smoothedY f s) (postSpawnTargets f s)).2 with
    | some _ => .hit
    | none => .shotMiss
  else .noShot

/-- The trace of `didShoot` values along a run of frames. -/
def runShots (s : St) : List Frame → List Bool
  | [] => []
  | f :: fs => didShootIn f s :: runShots (update f s) fs

/-- Folding `update` over a list of frames. -/
def runUpdate (s : St) : List Frame → St
  | [] => s
  | f :: fs => runUpdate (update f s) fs

/-- The trace of step events along a run of frames. -/
def runEvents (s : St) : List Frame → List StepEvent
  | [] => []
  | f :: fs => stepEvent f s :: runEvents (update f s) fs

/-- The values taken by `currentStreak` along a run of frames, the
starting value included. -/
def streakTrace (s : St) : List Frame → List ℕ
  | [] => [s.gstate.currentStreak]
  | f :: fs => s.gstate.currentStreak :: streakTrace (update f s) fs

/-- Maximum of a list of naturals (0 for the empty list). -/
def listMax (l : List ℕ) : ℕ := l.foldr max 0

/-- Number of targets in a list that are marked hit. -/
def countHits (l : List Target) : ℕ := (l.filter fun t => t.isHit).length

/-- The initial session state (`GameCanvas.tsx` lines 21-39), with the
session's `Date.now()` start passed explicitly. -/
def initSt (startTime : ℤ) : St :=
  { targets := []
    stats :=
      { score := 0, hits := 0, misses := 0, accuracy := 0
        avgReactionTime := 0, bestStreak := 0 }
    gstate :=
      { lastSpawn := 0, startTime := startTime, currentStreak := 0
        reactionTimes := [], lastShotTime := 0, isPinchingPrevious := false
        cursorX := CANVAS_WIDTH / 2, cursorY := CANVAS_HEIGHT / 2 } }

/-- One session as seen by the render loop: the mutable state plus
whether the session has reached its terminal (game-over) frame.  Once
`over` is set, the source's `tick` returns without re-registering
itself with `requestAnimationFrame`, so no further frame is processed;
the embedding models that as `tick` acting as the identity. -/
structure Session where
  st : St
  over : Bool
  deriving Repr, DecidableEq

/-- The end-of-session stat finalization (`GameCanvas.tsx` lines 228-234):
accuracy from hit/miss counters, average reaction time from the recorded
samples. -/
def finalizeStats (stats : GameStats) (g : GState) : GameStats :=
  let totalShots := stats.hits + stats.misses
  let totalReaction := g.reactionTimes.foldl (fun a b => a + b) (0 : ℤ)
  { stats with
      accuracy := if totalShots > 0 then (stats.hits : ℚ) / (totalShots : ℚ) * 100 else 0
      avgReactionTime :=
        if g.reactionTimes.length > 0 then
          (totalReaction : ℚ) / (g.reactionTimes.length : ℚ)
        else 0 }

/-- `tick` (`GameCanvas.tsx` lines 219-249): compute `remaining`, and
either finalize (first frame with `remaining <= 0`, after which the
loop is never rescheduled) or run one `update`. -/
def tick (gameDuration : ℚ) (f : Frame) (s : Session) : Session :=
  if s.over then s
  else
    let elapsed : ℚ := ((f.time - s.st.gstate.startTime : ℤ) : ℚ) / 1000
    let remaining := max 0 (gameDuration - elapsed)
    if remaining ≤ 0 then
      { st := { s.st with stats := finalizeStats s.st.stats s.st.gstate }, over := true }
    else
      { st := update f s.st, over := false }

/-- Folding `tick` over a list of frames. -/
def runTicks (gameDuration : ℚ) (s : Session) : List Frame → Session
  | [] => s
  | f :: fs => runTicks gameDuration (tick gameDuration f s) fs

/-! ### The coach collaborator (`src/services/geminiService.ts`)

`getCoachFeedback` is async code over an external SDK; we embed its
control flow.  The environment is:
* `apiKey` — `process.env.API_KEY || ''` (the source checks `!apiKey`,
  i.e. the empty string);
* a `TransportOutcome` — either the awaited `generateContent` call threw
  (caught by the `try`/`catch`), or it returned a response whose `.text`
  is modelled as `Option String` (`none` for `undefined`);
* a parse oracle for `JSON.parse` — `none` when parsing throws (also
  caught), `some v` for the parsed JSON value.
The result is `Option Json`: `none` is JavaScript `null`, the value the
source returns when `response.text` is absent or empty. -/

/-- A JSON value, the result type of `JSON.parse`. -/
inductive Json where
  | jnull
  | jstr (s : String)
  | jnum (q : ℚ)
  | jbool (b : Bool)
  | jarr (elems : List Json)
  | jobj (fields : List (String × Json))

/-- Outcome of the awaited `ai.models.generateContent` call. -/
inductive TransportOutcome where
  | failure
  | success (text : Option String)
  deriving Repr

/-- The structured fallback returned when no API key is configured
(`geminiService.ts` lines 10-14). -/
def noKeyFallback : Json :=
  .jobj
    [("summary", .jstr "Mission complete, soldier. No comms link to HQ (API Key missing)."),
     ("tips", .jarr [.jstr "Check your API configuration.", .jstr "Practice makes perfect."]),
     ("rank", .jstr "Recruit")]

/-- The structured fallback returned from the `catch` block
(`geminiService.ts` lines 57-61). -/
def errorFallback : Json :=
  .jobj
    [("summary", .jstr "Data corruption in transmission. Good shooting, regardless."),
     ("tips", .jarr [.jstr "Keep your hand steady.", .jstr "Focus on the center of the target."]),
     ("rank", .jstr "Unknown")]

/-- `getCoachFeedback` (`geminiService.ts` lines 7-63).  `stats` only
feeds the prompt string, which does not influence the control flow. -/
def getCoachFeedback (stats : GameStats) (apiKey : String)
    (outcome : TransportOutcome) (parse : String → Option Json) : Option Json :=
  if apiKey = "" then some noKeyFallback
  else
    match outcome with
    | .failure => some errorFallback
    | .success text =>
      match text with
      | none => none
      | some s =>
        if s = "" then none
        else
          match parse s with
          | some v => some v
          | none => some errorFallback

/-- Whether a JSON value is an object carrying the `summary`, `tips` and
`rank` fields of the coach contract. -/
def hasCoachFields (j : Json) : Bool :=
  match j with
  | .jobj fields =>
    (fields.any fun p => p.1 == "summary") &&
    (fields.any fun p => p.1 == "tips") &&
    (fields.any fun p => p.1 == "rank")
  | _ => false

/-! ### Concrete inputs used to instantiate the theorems -/

/-- A pinching cursor at the canvas center. -/
def exCursorShoot : HandCursor := { x := 1/2, y := 1/2, isPinching := true }

/-- A non-pinching cursor at the canvas center. -/
def exCursorIdle : HandCursor := { x := 1/2, y := 1/2, isPinching := false }

/-- Fixed random draws. -/
def exRand : SpawnRand := { rid := 0, rx := 0, ry := 0 }

/-- A frame at t=1000ms with a pinch held. -/
def exFrameShoot : Frame := { time := 1000, cursor := exCursorShoot, rand := exRand }

/-- A frame at t=1000ms with no pinch. -/
def exFrameIdle : Frame := { time := 1000, cursor := exCursorIdle, rand := exRand }

/-- A live target centered under the canvas-center cursor. -/
def exTarget : Target :=
  { id := 0, x := 640, y := 360, radius := 40, spawnTime := 900,
    lifeTime := 3000, isHit := false }

/-- A second, more recently spawned target also under the cursor. -/
def exTargetB : Target :=
  { id := 1, x := 640, y := 360, radius := 40, spawnTime := 950,
    lifeTime := 3000, isHit := false }

/-- A target whose lifetime has exactly elapsed at t=1000ms. -/
def exExpired : Target :=
  { id := 2, x := 100, y := 100, radius := 40, spawnTime := -2000,
    lifeTime := 3000, isHit := false }

/-- A target at distance exactly 5 = radius from the origin cursor. -/
def exBoundaryTarget : Target :=
  { id := 3, x := 3, y := 4, radius := 5, spawnTime := 0,
    lifeTime := 3000, isHit := false }

/-- Session state holding the given targets, with the spawn gate closed
at t=1000ms (so no fresh spawn interferes with the examples). -/
def exSt (targets : List Target) : St :=
  { initSt 0 with
      targets := targets
      gstate := { (initSt 0).gstate with lastSpawn := 1000 } }

/-- Zeroed stats, used as the concrete coach-service input. -/
def exStats : GameStats :=
  { score := 0, hits := 0, misses := 0, accuracy := 0,
    avgReactionTime := 0, bestStreak := 0 }

/-! ## Helper lemmas about the shoot scan -/

/-- A qualifying target is not yet marked hit. -/
theorem qualifies_isHit_false {time : ℤ} {cx cy : ℚ} {t : Target}
    (h : qualifies time cx cy t = true) : t.isHit = false := by
  simp [qualifies, isActive, hitTest] at h
  exact h.1.1

/-- The scan reports no hit exactly when no target qualifies. -/
theorem shootScan_eq_none_iff (time : ℤ) (cx cy : ℚ) (ts : List Target) :
    (shootScan time cx cy ts).2 = none ↔
      ∀ t ∈ ts, qualifies time cx cy t = false := by
  induction ts with
  | nil => simp [shootScan]
  | cons t ts ih =>
    cases hr : (shootScan time cx cy ts).2 with
    | some h =>
      simp only [shootScan, hr]
      constructor
      · intro hn; cases hn
      · intro hall
        have hnone : (shootScan time cx cy ts).2 = none :=
          ih.mpr fun u hu => hall u (List.mem_cons_of_mem _ hu)
        rw [hr] at hnone; cases hnone
    | none =>
      have h1 := ih.mp hr
      by_cases hq : qualifies time cx cy t = true
      · simp only [shootScan, hr, hq, if_true]
        constructor
        · intro hn; cases hn
        · intro hall
          have := hall t (List.mem_cons_self t ts)
          rw [hq] at this; cases this
      · simp only [shootScan, hr, Bool.not_eq_true] at hq ⊢
        simp only [hq, if_false]
        constructor
        · intro _ u hu
          rcases List.mem_cons.mp hu with h | h
          · subst h; exact hq
          · exact h1 u h
        · intro _; rfl

/-- When the scan finds no hit, the target list is returned unchanged. -/
theorem shootScan_fst_of_none (time : ℤ) (cx cy : ℚ) (ts : List Target)
    (hn : (shootScan time cx cy ts).2 = none) :
    (shootScan time cx cy ts).1 = ts := by
  induction ts with
  | nil => simp [shootScan]
  | cons t ts ih =>
    cases hr : (shootScan time cx cy ts).2 with
    | some h => simp only [shootScan, hr] at hn; cases hn
    | none =>
      by_cases hq : qualifies time cx cy t = true
      · simp only [shootScan, hr, hq, if_true] at hn; cases hn
      · simp only [shootScan, hr, Bool.not_eq_true] at hq ⊢
        simp [hq]

/-- Decomposition of a successful scan: the hit target is the last
qualifying element of the list, it alone is marked, and everything after
it fails the hit test or is inactive. -/
theorem shootScan_some (time : ℤ) (cx cy : ℚ) :
    ∀ (ts : List Target) (h : Target),
      (shootScan time cx cy ts).2 = some h →
      ∃ pre post, ts = pre ++ h :: post ∧
        qualifies time cx cy h = true ∧
        (∀ u ∈ post, qualifies time cx cy u = false) ∧
        (shootScan time cx cy ts).1 = pre ++ ({ h with isHit := true } :: post)
  | [], h => by intro hs; simp [shootScan] at hs
  | t :: ts, h => by
    intro hs
    cases hr : (shootScan time cx cy ts).2 with
    | some h' =>
      have hh : h' = h := by
        simp only [shootScan, hr] at hs
        exact Option.some_injective _ hs
      obtain ⟨pre, post, hdec, hq, hpost, hfst⟩ := shootScan_some time cx cy ts h' hr
      rw [hh] at hdec hq hfst
      refine ⟨t :: pre, post, ?_, hq, hpost, ?_⟩
      · simp [hdec]
      · simp only [shootScan, hr, hfst]
        simp
    | none =>
      by_cases hq : qualifies time cx cy t = true
      · have hh : t = h := by
          simp only [shootScan, hr, hq, if_true] at hs
          exact Option.some_injective _ hs
        subst hh
        refine ⟨[], ts, by simp, hq, shootScan_eq_none_iff time cx cy ts |>.mp hr, ?_⟩
        simp only [shootScan, hr, hq, if_true]
        simp
      · simp only [shootScan, hr, Bool.not_eq_true] at hq hs
        simp only [hq, if_false] at hs
        cases hs

/-- `countHits` distributes over append. -/
theorem countHits_append (a b : List Target) :
    countHits (a ++ b) = countHits a + countHits b := by
  simp [countHits, List.filter_append]

/-! ## Shape of one `update` step, by event -/

/-- Effect of an `update` step whose shoot event hit target `h`. -/
theorem update_shape_hit (f : Frame) (s : St) (h : Target)
    (hshoot : didShootIn f s = true)
    (hscan : (shootScan f.time (smoothedX f s) (smoothedY f s)
        (postSpawnTargets f s)).2 = some h) :
    (update f s).stats.score = s.stats.score + (100 + s.gstate.currentStreak * 10) ∧
    (update f s).stats.hits = s.stats.hits + 1 ∧
    (update f s).stats.misses = s.stats.misses ∧
    (update f s).stats.bestStreak =
      (if s.gstate.currentStreak + 1 > s.stats.bestStreak then
        s.gstate.currentStreak + 1 else s.stats.bestStreak) ∧
    (update f s).gstate.currentStreak = s.gstate.currentStreak + 1 ∧
    (update f s).gstate.reactionTimes =
      s.gstate.reactionTimes ++ [f.time - h.spawnTime] ∧
    (update f s).targets =
      cleanupPhase f.time (shootScan f.time (smoothedX f s) (smoothedY f s)
        (postSpawnTargets f s)).1 := by
  simp only [update, hshoot, if_true, hscan]
  trivial

/-- Effect of an `update` step whose shoot event missed every target. -/
theorem update_shape_shotMiss (f : Frame) (s : St)
    (hshoot : didShootIn f s = true)
    (hscan : (shootScan f.time (smoothedX f s) (smoothedY f s)
        (postSpawnTargets f s)).2 = none) :
    (update f s).stats.score = s.stats.score ∧
    (update f s).stats.hits = s.stats.hits ∧
    (update f s).stats.misses = s.stats.misses + 1 ∧
    (update f s).stats.bestStreak = s.stats.bestStreak ∧
    (update f s).gstate.currentStreak = 0 ∧
    (update f s).gstate.reactionTimes = s.gstate.reactionTimes ∧
    (update f s).targets = cleanupPhase f.time (postSpawnTargets f s) := by
  have hfst := shootScan_fst_of_none f.time (smoothedX f s) (smoothedY f s)
    (postSpawnTargets f s) hscan
  simp only [update, hshoot, if_true, hscan, hfst]
  trivial

/-- Effect of an `update` step with no shoot event: stats and streak are
untouched; only spawning, smoothing, edge state and cleanup act. -/
theorem update_shape_noShot (f : Frame) (s : St)
    (hshoot : didShootIn f s = false) :
    (update f s).stats = s.stats ∧
    (update f s).gstate.currentStreak = s.gstate.currentStreak ∧
    (update f s).gstate.reactionTimes = s.gstate.reactionTimes ∧
    (update f s).targets = cleanupPhase f.time (postSpawnTargets f s) := by
  simp only [update, hshoot, Bool.false_eq_true, if_false]
  trivial

/-- The pinch edge state is updated unconditionally on every step. -/
theorem update_isPinchingPrevious (f : Frame) (s : St) :
    (update f s).gstate.isPinchingPrevious = f.cursor.isPinching := by
  simp only [update]

/-- With the previous pinch state already true, a run of frames that all
keep pinching produces no shoot event at all. -/
theorem runShots_all_false (fs : List Frame) : ∀ s : St,
    s.gstate.isPinchingPrevious = true →
    (∀ g ∈ fs, g.cursor.isPinching = true) →
    runShots s fs = List.replicate fs.length false := by
  induction fs with
  | nil => intro s _ _; rfl
  | cons f fs ih =>
    intro s hprev hp
    have h1 : didShootIn f s = false := by
      simp [didShootIn, hprev]
    have h2 : (update f s).gstate.isPinchingPrevious = true := by
      rw [update_isPinchingPrevious]; exact hp f (List.mem_cons_self f fs)
    simp [runShots, h1,
      ih (update f s) h2 (fun g hg => hp g (List.mem_cons_of_mem _ hg)),
      List.replicate_succ]

/-- C3: across a nonempty run of simulation steps in which the cursor is
pinching throughout, exactly one shoot event fires — on the first step,
and only when the pinch state of the previous step was false (the
`didShoot` trace is `true` then all `false`; it is all `false` when the
run starts already pinched) — and `isPinchingPrevious` is overwritten
with the current pinch state unconditionally on every step. -/
theorem C3_sustained_pinch_single_shot (s : St) (f : Frame) (fs : List Frame)
    (hpinch : ∀ g ∈ f :: fs, g.cursor.isPinching = true) :
    (s.gstate.isPinchingPrevious = false →
      runShots s (f :: fs) = true :: List.replicate fs.length false) ∧
    (s.gstate.isPinchingPrevious = true →
      runShots s (f :: fs) = List.replicate (f :: fs).length false) ∧
    (∀ (g : Frame) (s' : St),
      (update g s').gstate.isPinchingPrevious = g.cursor.isPinching) := by
  refine ⟨?_, ?_, fun g s' => update_isPinchingPrevious g s'⟩
  · intro hprev
    have h1 : didShootIn f s = true := by
      simp [didShootIn, hprev, hpinch f (List.mem_cons_self f fs)]
    have h2 : (update f s).gstate.isPinchingPrevious = true := by
      rw [update_isPinchingPrevious]; exact hpinch f (List.mem_cons_self f fs)
    simp [runShots, h1,
      runShots_all_false fs (update f s) h2
        (fun g hg => hpinch g (List.mem_cons_of_mem _ hg))]
  · intro hprev
    exact runShots_all_false (f :: fs) s hprev hpinch

/-- C4: a shoot event with no qualifying target under the smoothed cursor
increments `misses` by exactly one, resets `currentStreak` to zero, and
leaves `score` unchanged. -/
theorem C4_miss_updates_stats (f : Frame) (s : St)
    (hshoot : didShootIn f s = true)
    (hmiss : ∀ t ∈ postSpawnTargets f s,
      qualifies f.time (smoothedX f s) (smoothedY f s) t = false) :
    (update f s).stats.misses = s.stats.misses + 1 ∧
    (update f s).gstate.currentStreak = 0 ∧
    (update f s).stats.score = s.stats.score := by
  have hscan := (shootScan_eq_none_iff f.time (smoothedX f s) (smoothedY f s)
    (postSpawnTargets f s)).mpr hmiss
  obtain ⟨h1, _, h3, _, h5, _, _⟩ := update_shape_shotMiss f s hshoot hscan
  exact ⟨h3, h5, h1⟩

/-- `countHits` on a cons. -/
theorem countHits_cons (t : Target) (l : List Target) :
    countHits (t :: l) = (if t.isHit then 1 else 0) + countHits l := by
  simp only [countHits, List.filter_cons]
  split <;> simp <;> omega

/-- C1: when a shoot event fires and at least one target in the
(post-spawn) list qualifies — is active and strictly contains the smoothed
cursor — the scan marks exactly one target hit: the last qualifying one in
push order (everything after it in the list fails to qualify), the hit
count of the list rises by exactly one, the session's `hits` counter rises
by exactly one, and if the list is ordered by spawn time the chosen target
is most-recently-spawned among all qualifying targets. -/
theorem C1_exactly_one_hit_topmost (f : Frame) (s : St)
    (hshoot : didShootIn f s = true)
    (hq : ∃ t ∈ postSpawnTargets f s,
      qualifies f.time (smoothedX f s) (smoothedY f s) t = true) :
    ∃ h pre post,
      postSpawnTargets f s = pre ++ h :: post ∧
      qualifies f.time (smoothedX f s) (smoothedY f s) h = true ∧
      (∀ u ∈ post, qualifies f.time (smoothedX f s) (smoothedY f s) u = false) ∧
      (shootScan f.time (smoothedX f s) (smoothedY f s) (postSpawnTargets f s)).1
        = pre ++ ({ h with isHit := true } :: post) ∧
      countHits (shootScan f.time (smoothedX f s) (smoothedY f s)
          (postSpawnTargets f s)).1
        = countHits (postSpawnTargets f s) + 1 ∧
      (update f s).stats.hits = s.stats.hits + 1 ∧
      ((postSpawnTargets f s).Pairwise (fun a b => a.spawnTime ≤ b.spawnTime) →
        ∀ u ∈ postSpawnTargets f s,
          qualifies f.time (smoothedX f s) (smoothedY f s) u = true →
          u.spawnTime ≤ h.spawnTime) := by
  cases hscan : (shootScan f.time (smoothedX f s) (smoothedY f s)
      (postSpawnTargets f s)).2 with
  | none =>
    obtain ⟨t, ht, hqt⟩ := hq
    have := (shootScan_eq_none_iff _ _ _ _).mp hscan t ht
    rw [hqt] at this; cases this
  | some h =>
    obtain ⟨pre, post, hdec, hqh, hpost, hfst⟩ :=
      shootScan_some _ _ _ _ h hscan
    refine ⟨h, pre, post, hdec, hqh, hpost, hfst, ?_, ?_, ?_⟩
    · rw [hfst, hdec, countHits_append, countHits_append, countHits_cons,
        countHits_cons, qualifies_isHit_false hqh]
      simp
      omega
    · exact (update_shape_hit f s h hshoot hscan).2.1
    · intro hsorted u hu hqu
      rw [hdec] at hsorted
      rcases List.mem_append.mp (hdec ▸ hu) with hu1 | hu2
      · exact (List.pairwise_append.mp hsorted).2.2 u hu1 h
          (List.mem_cons_self h post)
      · rcases List.mem_cons.mp hu2 with rfl | hu3
        · exact le_refl _
        · have := hpost u hu3
          rw [hqu] at this; cases this

/-- Characterization of a hit step. -/
theorem stepEvent_eq_hit (f : Frame) (s : St) :
    stepEvent f s = .hit ↔
      didShootIn f s = true ∧
      ∃ h, (shootScan f.time (smoothedX f s) (smoothedY f s)
        (postSpawnTargets f s)).2 = some h := by
  unfold stepEvent
  cases hd : didShootIn f s with
  | false => simp
  | true =>
    cases hs : (shootScan f.time (smoothedX f s) (smoothedY f s)
        (postSpawnTargets f s)).2 <;> simp [hs]

/-- Characterization of a missed-shot step. -/
theorem stepEvent_eq_shotMiss (f : Frame) (s : St) :
    stepEvent f s = .shotMiss ↔
      didShootIn f s = true ∧
      (shootScan f.time (smoothedX f s) (smoothedY f s)
        (postSpawnTargets f s)).2 = none := by
  unfold stepEvent
  cases hd : didShootIn f s with
  | false => simp
  | true =>
    cases hs : (shootScan f.time (smoothedX f s) (smoothedY f s)
        (postSpawnTargets f s)).2 <;> simp [hs]

/-- Characterization of a step with no shoot event. -/
theorem stepEvent_eq_noShot (f : Frame) (s : St) :
    stepEvent f s = .noShot ↔ didShootIn f s = false := by
  unfold stepEvent
  cases hd : didShootIn f s with
  | false => simp
  | true =>
    cases hs : (shootScan f.time (smoothedX f s) (smoothedY f s)
        (postSpawnTargets f s)).2 <;> simp [hs]

/-- Across a run of steps with no missed shot, the streak counter grows by
exactly the number of hit steps. -/
theorem streak_counts_hits (fs : List Frame) : ∀ s : St,
    (runEvents s fs).count .shotMiss = 0 →
    (runUpdate s fs).gstate.currentStreak =
      s.gstate.currentStreak + (runEvents s fs).count .hit := by
  induction fs with
  | nil => intro s _; simp [runUpdate, runEvents]
  | cons f fs ih =>
    intro s hnomiss
    rw [runEvents, List.count_cons] at hnomiss
    rw [runEvents, List.count_cons, runUpdate]
    cases hev : stepEvent f s with
    | hit =>
      rw [hev] at hnomiss
      simp at hnomiss ⊢
      obtain ⟨hd, h, hs⟩ := (stepEvent_eq_hit f s).mp hev
      have hstep := (update_shape_hit f s h hd hs).2.2.2.2.1
      rw [ih (update f s) hnomiss, hstep]
      omega
    | shotMiss =>
      rw [hev] at hnomiss
      simp at hnomiss
    | noShot =>
      rw [hev] at hnomiss
      simp at hnomiss ⊢
      have hd := (stepEvent_eq_noShot f s).mp hev
      have hstep := (update_shape_noShot f s hd).2.1
      rw [ih (update f s) hnomiss, hstep]

/-- C2: a hit adds `100 + 10 * currentStreak` (the streak as it stood
before the hit) to the score and increments the streak; a missed shot
resets the streak; a step without a shot leaves both alone; and across a
run with no missed shot the streak counter equals its starting value plus
the number of hits, so on the k-th consecutive hit of a streak begun at
zero the counter stands at k-1 and the score rises by `100 + 10*(k-1)`. -/
theorem C2_streak_score (f : Frame) (s : St) (fs : List Frame) :
    (stepEvent f s = .hit →
      (update f s).stats.score
        = s.stats.score + (100 + s.gstate.currentStreak * 10) ∧
      (update f s).gstate.currentStreak = s.gstate.currentStreak + 1) ∧
    (stepEvent f s = .shotMiss → (update f s).gstate.currentStreak = 0) ∧
    (stepEvent f s = .noShot →
      (update f s).gstate.currentStreak = s.gstate.currentStreak ∧
      (update f s).stats.score = s.stats.score) ∧
    ((runEvents s fs).count .shotMiss = 0 →
      (runUpdate s fs).gstate.currentStreak =
        s.gstate.currentStreak + (runEvents s fs).count .hit) := by
  refine ⟨?_, ?_, ?_, streak_counts_hits fs s⟩
  · intro hev
    obtain ⟨hd, h, hs⟩ := (stepEvent_eq_hit f s).mp hev
    obtain ⟨h1, _, _, _, h5, _, _⟩ := update_shape_hit f s h hd hs
    exact ⟨h1, h5⟩
  · intro hev
    obtain ⟨hd, hs⟩ := (stepEvent_eq_shotMiss f s).mp hev
    exact (update_shape_shotMiss f s hd hs).2.2.2.2.1
  · intro hev
    have hd := (stepEvent_eq_noShot f s).mp hev
    obtain ⟨h1, h2, _, _⟩ := update_shape_noShot f s hd
    exact ⟨h2, by rw [h1]⟩

/-- `cleanupPhase` distributes over append. -/
theorem cleanupPhase_append (time : ℤ) (a b : List Target) :
    cleanupPhase time (a ++ b) = cleanupPhase time a ++ cleanupPhase time b := by
  simp [cleanupPhase, List.filter_append]

/-- `cleanupPhase` drops an expired, unhit target. -/
theorem cleanupPhase_cons_expired (time : ℤ) (t : Target) (l : List Target)
    (hexp : t.lifeTime ≤ time - t.spawnTime) (hnh : t.isHit = false) :
    cleanupPhase time (t :: l) = cleanupPhase time l := by
  have h : ¬ (time - t.spawnTime < t.lifeTime) := by omega
  simp [cleanupPhase, List.filter_cons, h, hnh]

/-- An expired, unhit target is never an element of a cleaned-up list. -/
theorem not_mem_cleanupPhase (time : ℤ) (t : Target)
    (hexp : t.lifeTime ≤ time - t.spawnTime) (hnh : t.isHit = false) :
    ∀ l, t ∉ cleanupPhase time l := by
  intro l hmem
  have hp := List.of_mem_filter hmem
  have h : ¬ (time - t.spawnTime < t.lifeTime) := by omega
  simp [h, hnh] at hp

/-- Removing a non-qualifying target from anywhere in the list changes
neither the scan's verdict nor the rest of the list: the scan output is
the same list with the non-qualifying target still in place. -/
theorem shootScan_erase (time : ℤ) (cx cy : ℚ) (t : Target)
    (hq : qualifies time cx cy t = false) :
    ∀ a b : List Target,
      (shootScan time cx cy (a ++ t :: b)).2 = (shootScan time cx cy (a ++ b)).2 ∧
      ∃ a' b', (shootScan time cx cy (a ++ t :: b)).1 = a' ++ t :: b' ∧
        (shootScan time cx cy (a ++ b)).1 = a' ++ b'
  | [], b => by
    cases hr : (shootScan time cx cy b).2 with
    | some h =>
      refine ⟨?_, [], (shootScan time cx cy b).1, ?_, by simp⟩
      · simp only [List.nil_append, shootScan, List.append_eq, hr]
      · simp only [List.nil_append, shootScan, List.append_eq, hr]
    | none =>
      have hfst := shootScan_fst_of_none time cx cy b hr
      refine ⟨?_, [], b, ?_, by simp [hfst]⟩
      · simp only [List.nil_append, shootScan, List.append_eq, hr, hq, Bool.false_eq_true,
          if_false]
      · simp only [List.nil_append, shootScan, List.append_eq, hr, hq, Bool.false_eq_true,
          if_false]
  | x :: a, b => by
    obtain ⟨h2, a', b', h1a, h1b⟩ := shootScan_erase time cx cy t hq a b
    cases hr : (shootScan time cx cy (a ++ t :: b)).2 with
    | some h =>
      have hr2 : (shootScan time cx cy (a ++ b)).2 = some h := by
        rw [← h2, hr]
      refine ⟨?_, x :: a', b', ?_, ?_⟩
      · simp only [List.cons_append, shootScan, List.append_eq, hr, hr2]
      · simp only [List.cons_append, shootScan, List.append_eq, hr, h1a, List.cons_append]
      · simp only [List.cons_append, shootScan, List.append_eq, hr2, h1b, List.cons_append]
    | none =>
      have hr2 : (shootScan time cx cy (a ++ b)).2 = none := by
        rw [← h2, hr]
      by_cases hqx : qualifies time cx cy x = true
      · refine ⟨?_, { x with isHit := true } :: a, b, ?_, ?_⟩
        · simp only [List.cons_append, shootScan, List.append_eq, hr, hr2, hqx, if_true]
        · simp only [List.cons_append, shootScan, List.append_eq, hr, hqx, if_true]
        · simp only [List.cons_append, shootScan, List.append_eq, hr2, hqx, if_true]
      · rw [Bool.not_eq_true] at hqx
        refine ⟨?_, x :: a, b, ?_, ?_⟩
        · simp only [List.cons_append, shootScan, List.append_eq, hr, hr2, hqx,
            Bool.false_eq_true, if_false]
        · simp only [List.cons_append, shootScan, List.append_eq, hr, hqx,
            Bool.false_eq_true, if_false]
        · simp only [List.cons_append, shootScan, List.append_eq, hr2, hqx,
            Bool.false_eq_true, if_false]

/-- C7: an expired (`now - spawnTime >= lifeTime`), never-hit target is
inactive (so excluded from hit-testing), is dropped by the step's cleanup
from any list, and its presence anywhere in the target list has no effect
whatsoever on the step's outcome: `update` returns the very same state
with or without it. -/
theorem C7_expiry_is_silent (f : Frame) (l1 l2 : List Target)
    (stats : GameStats) (g : GState) (t : Target)
    (hexp : t.lifeTime ≤ f.time - t.spawnTime) (hnh : t.isHit = false) :
    isActive f.time t = false ∧
    (∀ l, t ∉ cleanupPhase f.time l) ∧
    update f ⟨l1 ++ t :: l2, stats, g⟩ = update f ⟨l1 ++ l2, stats, g⟩ := by
  have hact : isActive f.time t = false := by
    have h : ¬ (f.time - t.spawnTime < t.lifeTime) := by omega
    simp [isActive, h]
  have hq : qualifies f.time (smoothedX f ⟨l1 ++ l2, stats, g⟩)
      (smoothedY f ⟨l1 ++ l2, stats, g⟩) t = false := by
    simp [qualifies, hact]
  refine ⟨hact, not_mem_cleanupPhase f.time t hexp hnh, ?_⟩
  have hdd : didShootIn f ⟨l1 ++ t :: l2, stats, g⟩
      = didShootIn f ⟨l1 ++ l2, stats, g⟩ := rfl
  have hsx : smoothedX f ⟨l1 ++ t :: l2, stats, g⟩
      = smoothedX f ⟨l1 ++ l2, stats, g⟩ := rfl
  have hsy : smoothedY f ⟨l1 ++ t :: l2, stats, g⟩
      = smoothedY f ⟨l1 ++ l2, stats, g⟩ := rfl
  obtain ⟨L2, hp1, hp2⟩ :
      ∃ L2, postSpawnTargets f ⟨l1 ++ t :: l2, stats, g⟩ = l1 ++ t :: L2 ∧
        postSpawnTargets f ⟨l1 ++ l2, stats, g⟩ = l1 ++ L2 := by
    unfold postSpawnTargets
    by_cases hgate : f.time - g.lastSpawn > 800
    · exact ⟨l2 ++ [spawnTarget f.time f.rand], by simp [hgate], by simp [hgate]⟩
    · exact ⟨l2, by simp [hgate], by simp [hgate]⟩
  simp only [update, hdd, hsx, hsy, hp1, hp2]
  by_cases hshoot : didShootIn f ⟨l1 ++ l2, stats, g⟩ = true
  · simp only [hshoot, if_true]
    obtain ⟨h2, a', b', h1a, h1b⟩ := shootScan_erase f.time
      (smoothedX f ⟨l1 ++ l2, stats, g⟩) (smoothedY f ⟨l1 ++ l2, stats, g⟩)
      t hq l1 L2
    rw [h2, h1a, h1b]
    cases hs : (shootScan f.time (smoothedX f ⟨l1 ++ l2, stats, g⟩)
        (smoothedY f ⟨l1 ++ l2, stats, g⟩) (l1 ++ L2)).2 with
    | some h =>
      simp only [cleanupPhase_append,
        cleanupPhase_cons_expired f.time t b' hexp hnh]
    | none =>
      simp only [cleanupPhase_append,
        cleanupPhase_cons_expired f.time t b' hexp hnh]
  · rw [Bool.not_eq_true] at hshoot
    simp only [hshoot, Bool.false_eq_true, if_false]
    simp only [cleanupPhase_append,
      cleanupPhase_cons_expired f.time t L2 hexp hnh]

/-- One step of the bestStreak bookkeeping: provided the invariant
`currentStreak ≤ bestStreak` holds, after the step `bestStreak` is the
maximum of its old value and the new streak, and the invariant persists. -/
theorem bestStreak_step (f : Frame) (s : St)
    (hinv : s.gstate.currentStreak ≤ s.stats.bestStreak) :
    (update f s).stats.bestStreak
      = max s.stats.bestStreak ((update f s).gstate.currentStreak) ∧
    (update f s).gstate.currentStreak ≤ (update f s).stats.bestStreak := by
  by_cases hd : didShootIn f s = true
  · cases hs : (shootScan f.time (smoothedX f s) (smoothedY f s)
        (postSpawnTargets f s)).2 with
    | some h =>
      obtain ⟨_, _, _, h4, h5, _, _⟩ := update_shape_hit f s h hd hs
      rw [h4, h5]
      constructor
      · split <;> omega
      · split <;> omega
    | none =>
      obtain ⟨_, _, _, h4, h5, _, _⟩ := update_shape_shotMiss f s hd hs
      rw [h4, h5]
      omega
  · rw [Bool.not_eq_true] at hd
    obtain ⟨h1, h2, _, _⟩ := update_shape_noShot f s hd
    rw [h1, h2]
    omega

/-- `streakTrace` always starts with the current streak. -/
theorem streakTrace_head (s : St) (fs : List Frame) :
    ∃ rest, streakTrace s fs = s.gstate.currentStreak :: rest := by
  cases fs <;> exact ⟨_, rfl⟩

/-- Running from any state satisfying the invariant, `bestStreak` ends as
the maximum of its starting value and every streak value attained. -/
theorem bestStreak_run (fs : List Frame) : ∀ s : St,
    s.gstate.currentStreak ≤ s.stats.bestStreak →
    (runUpdate s fs).stats.bestStreak
      = max s.stats.bestStreak (listMax (streakTrace s fs)) ∧
    (runUpdate s fs).gstate.currentStreak
      ≤ (runUpdate s fs).stats.bestStreak := by
  induction fs with
  | nil =>
    intro s hinv
    simp only [runUpdate, streakTrace, listMax, List.foldr]
    omega
  | cons f fs ih =>
    intro s hinv
    obtain ⟨hb, hinv1⟩ := bestStreak_step f s hinv
    obtain ⟨hrun, hinvEnd⟩ := ih (update f s) hinv1
    refine ⟨?_, hinvEnd⟩
    rw [runUpdate, hrun, hb, streakTrace]
    obtain ⟨rest, hhd⟩ := streakTrace_head (update f s) fs
    have hle : (update f s).gstate.currentStreak ≤ listMax (streakTrace (update f s) fs) := by
      rw [hhd]; simp [listMax]
    simp only [listMax, List.foldr] at hle ⊢
    omega

/-- C10: starting from the initial session state, after any run of
simulation steps `bestStreak` equals the maximum value `currentStreak` has
attained at any point (the session starts at streak 0); in particular
`bestStreak ≥ currentStreak`, and one more step can never decrease
`bestStreak`. -/
theorem C10_bestStreak_is_running_max (startTime : ℤ) (frames : List Frame) :
    (runUpdate (initSt startTime) frames).stats.bestStreak
      = listMax (streakTrace (initSt startTime) frames) ∧
    (runUpdate (initSt startTime) frames).gstate.currentStreak
      ≤ (runUpdate (initSt startTime) frames).stats.bestStreak ∧
    ∀ f : Frame,
      (runUpdate (initSt startTime) frames).stats.bestStreak
        ≤ (update f (runUpdate (initSt startTime) frames)).stats.bestStreak := by
  have h0 : (initSt startTime).gstate.currentStreak
      ≤ (initSt startTime).stats.bestStreak := le_refl 0
  obtain ⟨hrun, hinv⟩ := bestStreak_run frames (initSt startTime) h0
  refine ⟨?_, hinv, ?_⟩
  · rw [hrun]
    simp [initSt]
  · intro f
    obtain ⟨hb, _⟩ := bestStreak_step f (runUpdate (initSt startTime) frames) hinv
    rw [hb]
    exact le_max_left _ _

/-- Bridge between the source's `distance(...) < radius` (computed with
`Math.sqrt`) and the embedded squared comparison: for a nonnegative
radius the two are equivalent. -/
theorem sqrt_distanceSq_lt_iff (x1 y1 x2 y2 r : ℚ) (hr : 0 ≤ r) :
    Real.sqrt ((distanceSq x1 y1 x2 y2 : ℚ) : ℝ) < (r : ℝ) ↔
      distanceSq x1 y1 x2 y2 < r ^ 2 := by
  have hd0 : (0:ℝ) ≤ ((distanceSq x1 y1 x2 y2 : ℚ) : ℝ) := by
    push_cast [distanceSq]
    positivity
  rw [Real.sqrt_lt hd0 (by exact_mod_cast hr)]
  constructor <;> intro h <;> exact_mod_cast h

/-- C6: a shot whose cursor lies at distance exactly `radius` from a
target's center (i.e. `Math.sqrt` of the squared offset equals the
radius) does not pass the hit test — the hit test demands the strict
inequality `distance < radius`, equivalently `distanceSq < radius ^ 2`. -/
theorem C6_boundary_shot_misses (cx cy : ℚ) (t : Target)
    (hr : 0 ≤ t.radius)
    (hb : Real.sqrt ((distanceSq cx cy t.x t.y : ℚ) : ℝ) = (t.radius : ℝ)) :
    hitTest cx cy t = false ∧
    ∀ (dx dy : ℚ) (u : Target),
      (hitTest dx dy u = true ↔ distanceSq dx dy u.x u.y < u.radius ^ 2) := by
  constructor
  · have hd0 : (0:ℝ) ≤ ((distanceSq cx cy t.x t.y : ℚ) : ℝ) := by
      push_cast [distanceSq]
      positivity
    have heq : ((distanceSq cx cy t.x t.y : ℚ) : ℝ) = ((t.radius : ℝ)) ^ 2 := by
      rw [← hb, Real.sq_sqrt hd0]
    have heq2 : distanceSq cx cy t.x t.y = t.radius ^ 2 := by
      exact_mod_cast heq
    simp [hitTest, heq2]
  · intro dx dy u
    simp [hitTest]

/-- One `update` keeps `hits` equal to the number of recorded
reaction-time samples. -/
theorem hits_reaction_step (f : Frame) (s : St)
    (hinv : s.stats.hits = s.gstate.reactionTimes.length) :
    (update f s).stats.hits = (update f s).gstate.reactionTimes.length := by
  by_cases hd : didShootIn f s = true
  · cases hs : (shootScan f.time (smoothedX f s) (smoothedY f s)
        (postSpawnTargets f s)).2 with
    | some h =>
      obtain ⟨_, h2, _, _, _, h6, _⟩ := update_shape_hit f s h hd hs
      rw [h2, h6, hinv]
      simp
    | none =>
      obtain ⟨_, h2, _, _, _, h6, _⟩ := update_shape_shotMiss f s hd hs
      rw [h2, h6, hinv]
  · rw [Bool.not_eq_true] at hd
    obtain ⟨h1, _, h3, _⟩ := update_shape_noShot f s hd
    rw [h1, h3, hinv]

/-- `tick` preserves the hits / reaction-samples invariant. -/
theorem hits_reaction_tick (d : ℚ) (f : Frame) (s : Session)
    (hinv : s.st.stats.hits = s.st.gstate.reactionTimes.length) :
    (tick d f s).st.stats.hits
      = (tick d f s).st.gstate.reactionTimes.length := by
  unfold tick
  cases hover : s.over with
  | true => simpa using hinv
  | false =>
    simp only [Bool.false_eq_true, if_false]
    split
    · simpa [finalizeStats] using hinv
    · exact hits_reaction_step f s.st hinv

/-- The hits / reaction-samples invariant holds along any session run. -/
theorem hits_reaction_runTicks (d : ℚ) (fs : List Frame) : ∀ s : Session,
    s.st.stats.hits = s.st.gstate.reactionTimes.length →
    (runTicks d s fs).st.stats.hits
      = (runTicks d s fs).st.gstate.reactionTimes.length := by
  induction fs with
  | nil => intro s hinv; exact hinv
  | cons f fs ih =>
    intro s hinv
    exact ih (tick d f s) (hits_reaction_tick d f s hinv)

/-- C5: on the first frame whose remaining time is ≤ 0, `tick` finalizes
the stats exactly as specified — accuracy is `hits/(hits+misses)*100`, or
0 when no shot was ever fired; average reaction time is the mean of the
recorded samples, or 0 when there are none (and, starting from the
initial session state, the number of samples always equals `hits`, so
"no samples" is "no hits") — while leaving targets, counters and the
game state untouched (the Simulation Step does not run on that frame);
and once the session is over, `tick` is the identity: stats are
finalized exactly once and the Simulation Step is never invoked again. -/
theorem C5_session_end_finalizes_once (d : ℚ) (f : Frame) (s : Session)
    (startTime : ℤ) (frames : List Frame) :
    (s.over = false →
      d ≤ ((f.time - s.st.gstate.startTime : ℤ) : ℚ) / 1000 →
      (tick d f s).over = true ∧
      (tick d f s).st.targets = s.st.targets ∧
      (tick d f s).st.gstate = s.st.gstate ∧
      (tick d f s).st.stats.hits = s.st.stats.hits ∧
      (tick d f s).st.stats.misses = s.st.stats.misses ∧
      (tick d f s).st.stats.score = s.st.stats.score ∧
      (tick d f s).st.stats.accuracy =
        (if s.st.stats.hits + s.st.stats.misses > 0 then
          (s.st.stats.hits : ℚ) / ((s.st.stats.hits + s.st.stats.misses : ℕ) : ℚ) * 100
        else 0) ∧
      (tick d f s).st.stats.avgReactionTime =
        (if s.st.gstate.reactionTimes.length > 0 then
          ((s.st.gstate.reactionTimes.foldl (fun a b => a + b) (0:ℤ) : ℤ) : ℚ)
            / (s.st.gstate.reactionTimes.length : ℚ)
        else 0)) ∧
    (s.over = true → tick d f s = s) ∧
    (runTicks d ⟨initSt startTime, false⟩ frames).st.stats.hits
      = (runTicks d ⟨initSt startTime, false⟩ frames).st.gstate.reactionTimes.length := by
  refine ⟨?_, ?_, hits_reaction_runTicks d frames ⟨initSt startTime, false⟩ rfl⟩
  · intro hover hd
    have hcond : max 0 (d - ((f.time - s.st.gstate.startTime : ℤ) : ℚ) / 1000) ≤ 0 :=
      max_le (le_refl 0) (by linarith)
    unfold tick
    rw [hover]
    simp only [Bool.false_eq_true, if_false]
    rw [if_pos hcond]
    exact ⟨rfl, rfl, rfl, rfl, rfl, rfl, rfl, rfl⟩
  · intro hover
    unfold tick
    rw [hover]
    simp

/-- C8 (amended): a hit target is removed from the target list in the
very same frame in which it is hit — the end-of-step cleanup filters out
every target with `isHit = true`, so no target ever survives an `update`
marked hit (it does not linger for one extra frame). -/
theorem C8_hit_removed_same_frame (f : Frame) (s : St) (t : Target)
    (hmem : t ∈ (update f s).targets) : t.isHit = false := by
  have hcl : (update f s).targets =
      cleanupPhase f.time
        ((if didShootIn f s then
            shootScan f.time (smoothedX f s) (smoothedY f s) (postSpawnTargets f s)
          else (postSpawnTargets f s, none)).1) := rfl
  rw [hcl] at hmem
  have hp := List.of_mem_filter hmem
  simp at hp
  exact hp.2

/-- C8 (counterexample to the claim as stated): a concrete frame in which
a target is hit — `hits` rises from 0 to 1 — and the target list at the
end of that same `update` is already empty: the hit target does not
remain present for one frame before destruction. -/
theorem C8_counterexample_same_frame_removal :
    (update exFrameShoot (exSt [exTarget])).stats.hits = 1 ∧
    (update exFrameShoot (exSt [exTarget])).targets = [] := by
  norm_num [update, exFrameShoot, exCursorShoot, exRand, exSt, exTarget, initSt,
    shootScan, qualifies, isActive, hitTest, distanceSq, cleanupPhase,
    postSpawnTargets, smoothedX, smoothedY, didShootIn,
    CANVAS_WIDTH, CANVAS_HEIGHT]

/-- C9 (amended): the coach call never throws — every failure path is
caught — and it returns the structured fallback (carrying summary, tips
and rank) when the API key is missing, when the transport call throws,
and when a nonempty response text fails to parse; a successfully parsed
payload is returned as-is.  However, when the transport succeeds but the
response text is absent or empty, the function returns `null` (`none`),
not a structured fallback. -/
theorem C9_coach_fallback_paths (stats : GameStats) (apiKey : String)
    (outcome : TransportOutcome) (parse : String → Option Json) :
    (apiKey = "" →
      getCoachFeedback stats apiKey outcome parse = some noKeyFallback) ∧
    (apiKey ≠ "" → outcome = .failure →
      getCoachFeedback stats apiKey outcome parse = some errorFallback) ∧
    (∀ s, apiKey ≠ "" → outcome = .success (some s) → s ≠ "" →
      parse s = none →
      getCoachFeedback stats apiKey outcome parse = some errorFallback) ∧
    (∀ s v, apiKey ≠ "" → outcome = .success (some s) → s ≠ "" →
      parse s = some v →
      getCoachFeedback stats apiKey outcome parse = some v) ∧
    (apiKey ≠ "" → (outcome = .success none ∨ outcome = .success (some "")) →
      getCoachFeedback stats apiKey outcome parse = none) ∧
    hasCoachFields noKeyFallback = true ∧
    hasCoachFields errorFallback = true := by
  refine ⟨?_, ?_, ?_, ?_, ?_, rfl, rfl⟩
  · intro hk; simp [getCoachFeedback, hk]
  · intro hk hout; subst hout; simp [getCoachFeedback, hk]
  · intro s hk hout hs hp; subst hout; simp [getCoachFeedback, hk, hs, hp]
  · intro s v hk hout hs hp; subst hout; simp [getCoachFeedback, hk, hs, hp]
  · intro hk hout
    rcases hout with hout | hout <;> subst hout <;> simp [getCoachFeedback, hk]

/-- C9 (counterexample to the claim as stated): with an API key present
and a transport success whose response text is empty — a payload that is
not parseable as the structured coach response — `getCoachFeedback`
returns `null` (`none`), not a structured fallback carrying summary,
tips and rank. -/
theorem C9_counterexample_null_on_empty_text :
    getCoachFeedback exStats "key" (.success (some "")) (fun _ => none)
      = none := by
  simp [getCoachFeedback]

/-! ## Witnesses: the theorems' hypotheses hold at concrete inputs -/

/-- Witness for C1 at a pinch frame over two overlapping live targets. -/
theorem C1_witness :
    (update exFrameShoot (exSt [exTarget, exTargetB])).stats.hits
      = (exSt [exTarget, exTargetB]).stats.hits + 1 := by
  obtain ⟨h, pre, post, _, _, _, _, _, hh, _⟩ :=
    C1_exactly_one_hit_topmost exFrameShoot (exSt [exTarget, exTargetB])
      (by rfl)
      ⟨exTargetB,
        by norm_num [postSpawnTargets, exSt, initSt, exFrameShoot,
          exCursorShoot, exRand, exTarget, exTargetB],
        by norm_num [qualifies, isActive, hitTest, distanceSq, smoothedX,
          smoothedY, exFrameShoot, exCursorShoot, exSt, initSt, exTargetB,
          CANVAS_WIDTH, CANVAS_HEIGHT]⟩
  exact hh

/-- Witness for C2 at a pinch frame over one live target. -/
theorem C2_witness :
    (update exFrameShoot (exSt [exTarget])).stats.score
      = (exSt [exTarget]).stats.score
          + (100 + (exSt [exTarget]).gstate.currentStreak * 10) ∧
    (runUpdate (exSt [exTarget]) []).gstate.currentStreak
      = (exSt [exTarget]).gstate.currentStreak
          + (runEvents (exSt [exTarget]) []).count .hit := by
  refine ⟨?_, (C2_streak_score exFrameIdle (exSt [exTarget]) []).2.2.2 rfl⟩
  refine ((C2_streak_score exFrameShoot (exSt [exTarget]) []).1 ?_).1
  norm_num [stepEvent, didShootIn, shootScan, qualifies, isActive, hitTest,
    distanceSq, smoothedX, smoothedY, postSpawnTargets, exFrameShoot,
    exCursorShoot, exRand, exSt, initSt, exTarget, CANVAS_WIDTH, CANVAS_HEIGHT]

/-- Witness for C3 over two consecutive pinched frames. -/
theorem C3_witness :
    runShots (exSt []) [exFrameShoot, exFrameShoot]
      = true :: List.replicate 1 false := by
  exact (C3_sustained_pinch_single_shot (exSt []) exFrameShoot [exFrameShoot]
    (by simp [exFrameShoot, exCursorShoot])).1 rfl

/-- Witness for C4 at a pinch frame with no target present. -/
theorem C4_witness :
    (update exFrameShoot (exSt [])).stats.misses = (exSt []).stats.misses + 1 ∧
    (update exFrameShoot (exSt [])).gstate.currentStreak = 0 ∧
    (update exFrameShoot (exSt [])).stats.score = (exSt []).stats.score :=
  C4_miss_updates_stats exFrameShoot (exSt []) (by rfl)
    (by simp [postSpawnTargets, exSt, initSt, exFrameShoot])

/-- Witness for C5 at a frame past the 30s session duration. -/
theorem C5_witness :
    (tick 30 { exFrameShoot with time := 31000 } ⟨exSt [], false⟩).over = true ∧
    tick 30 exFrameShoot ⟨exSt [], true⟩ = ⟨exSt [], true⟩ := by
  refine ⟨?_, (C5_session_end_finalizes_once 30 exFrameShoot ⟨exSt [], true⟩ 0 []).2.1 rfl⟩
  exact ((C5_session_end_finalizes_once 30 { exFrameShoot with time := 31000 }
    ⟨exSt [], false⟩ 0 []).1 rfl (by norm_num [exSt, initSt])).1

/-- Witness for C6 at a cursor whose distance from the target center is
exactly the radius (3-4-5 triangle). -/
theorem C6_witness : hitTest 0 0 exBoundaryTarget = false := by
  refine (C6_boundary_shot_misses 0 0 exBoundaryTarget
    (by norm_num [exBoundaryTarget]) ?_).1
  have h25 : ((distanceSq 0 0 exBoundaryTarget.x exBoundaryTarget.y : ℚ) : ℝ)
      = (25 : ℝ) := by
    norm_num [distanceSq, exBoundaryTarget]
  rw [h25, show (25:ℝ) = 5 ^ 2 by norm_num, Real.sqrt_sq (by norm_num)]
  norm_num [exBoundaryTarget]

/-- Witness for C7 with a target exactly at the end of its lifetime. -/
theorem C7_witness :
    update exFrameShoot ⟨[] ++ exExpired :: [exTarget], (initSt 0).stats,
        (exSt []).gstate⟩
      = update exFrameShoot ⟨[] ++ [exTarget], (initSt 0).stats,
        (exSt []).gstate⟩ := by
  exact (C7_expiry_is_silent exFrameShoot [] [exTarget] (initSt 0).stats
    (exSt []).gstate exExpired (by decide) rfl).2.2

/-- Witness for C8 with a live target surviving an idle frame. -/
theorem C8_witness : exTarget.isHit = false := by
  refine C8_hit_removed_same_frame exFrameIdle (exSt [exTarget]) exTarget ?_
  norm_num [update, exFrameIdle, exCursorIdle, exRand, exSt, exTarget, initSt,
    shootScan, qualifies, isActive, hitTest, distanceSq, cleanupPhase,
    postSpawnTargets, smoothedX, smoothedY, didShootIn,
    CANVAS_WIDTH, CANVAS_HEIGHT]

/-- Witness for C9 on the missing-key and transport-failure paths. -/
theorem C9_witness :
    getCoachFeedback exStats "" .failure (fun _ => none) = some noKeyFallback ∧
    getCoachFeedback exStats "key" .failure (fun _ => none) = some errorFallback :=
  ⟨(C9_coach_fallback_paths exStats "" .failure (fun _ => none)).1 rfl,
   (C9_coach_fallback_paths exStats "key" .failure (fun _ => none)).2.1
     (by simp) rfl⟩

end AimTrainer
